import Mathlib

/-!
# papersqueeze — formal model of the extraction reconciliation core

A shallow embedding of the normalization, confidence-scoring and merge
layers of the papersqueeze repository
(`src/papersqueeze/utils/normalization.py`,
`src/papersqueeze/services/confidence.py`,
`src/papersqueeze/services/merge.py`,
`src/papersqueeze/models/extraction.py`,
`src/papersqueeze/models/document.py`).

Modelling conventions:
* Python `str | None` values become `Option String`; field values flowing
  through the merge layer are strings or `None` in the source, so the
  `Any`-typed parameters are embedded at `Option String`.
* Python `float` confidences and scores become `ℚ`.
* Python string methods (`strip`, `split`, `lower`, `replace`, slicing,
  `rfind`) are modelled over `List Char` for the ASCII subset exercised by
  the program's data.
* `decimal.Decimal` values are modelled as a sign plus a natural mantissa
  and decimal scale; `f"{d:.Nf}"` formatting rounds half-to-even exactly
  as CPython does for `Decimal`.
-/

namespace PaperSqueeze

/-! ## Python string primitives -/

/-- Whitespace characters recognised by Python's `str.strip()` / `str.split()`
(ASCII subset). -/
def isPySpace (c : Char) : Bool :=
  c = ' ' || c = '\t' || c = '\n' || c = '\r' || c = '\x0b' || c = '\x0c'

/-- `str.strip()` on a character list. -/
def stripL (cs : List Char) : List Char :=
  ((cs.dropWhile isPySpace).reverse.dropWhile isPySpace).reverse

/-- `str.strip()`. -/
def pyStrip (s : String) : String := ⟨stripL s.data⟩

/-- `str.split()` (no argument): split on whitespace runs, dropping empty
pieces.  The first argument accumulates the current word (reversed). -/
def wordsAux (acc : List Char) : List Char → List (List Char)
  | [] => if acc.isEmpty then [] else [acc.reverse]
  | c :: cs =>
    if isPySpace c then
      if acc.isEmpty then wordsAux [] cs else acc.reverse :: wordsAux [] cs
    else
      wordsAux (c :: acc) cs

/-- `str.split()` on a character list. -/
def wordsL (cs : List Char) : List (List Char) := wordsAux [] cs

/-- `" ".join(words)`. -/
def joinSpace : List (List Char) → List Char
  | [] => []
  | [w] => w
  | w :: ws => w ++ ' ' :: joinSpace ws

/-- `" ".join(s.split())` — collapse whitespace runs to single spaces and
trim, as in `normalize_text` and `values_match`. -/
def collapseWs (s : String) : String := ⟨joinSpace (wordsL s.data)⟩

/-- `str.lower()` (ASCII subset). -/
def pyLower (s : String) : String := ⟨s.data.map Char.toLower⟩

/-- Left-to-right non-overlapping replacement of a non-empty pattern, as in
Python `str.replace` with a non-empty pattern.  The fuel argument (any
value `≥` the subject's length) only makes the recursion structural. -/
def replaceFuel (pat rep : List Char) : Nat → List Char → List Char
  | 0, s => s
  | _ + 1, [] => []
  | fuel + 1, c :: cs =>
    if pat ≠ [] && pat.isPrefixOf (c :: cs) then
      rep ++ replaceFuel pat rep fuel (cs.drop (pat.length - 1))
    else
      c :: replaceFuel pat rep fuel cs

/-- Left-to-right non-overlapping replacement of a non-empty pattern. -/
def replaceL (pat rep s : List Char) : List Char :=
  replaceFuel pat rep s.length s

/-- Python `str.replace(pat, rep)` (an empty pattern inserts `rep` around
every character, as CPython does). -/
def pyReplace (s pat rep : String) : String :=
  if pat.data.isEmpty then ⟨rep.data ++ s.data.flatMap (fun c => c :: rep.data)⟩
  else ⟨replaceL pat.data rep.data s.data⟩

/-- Python `str.rfind(c)` for a single character: index of the last
occurrence, `-1` when absent. -/
def rfindPos (c : Char) : List Char → Int
  | [] => -1
  | a :: as =>
    if 0 ≤ rfindPos c as then rfindPos c as + 1
    else if a = c then 0 else -1

/-- Python string slice `s[:i]`, including negative-index semantics. -/
def pySliceTo (s : String) (i : Int) : String :=
  if 0 ≤ i then ⟨s.data.take i.toNat⟩
  else ⟨s.data.take (((s.data.length : Int) + i).toNat)⟩

/-- Python code-point-lexicographic `a <= b` on strings. -/
def strLeL : List Char → List Char → Bool
  | [], _ => true
  | _ :: _, [] => false
  | a :: as, b :: bs => if a = b then strLeL as bs else decide (a.val < b.val)

/-- Python `a <= b` on strings. -/
def pyStrLe (a b : String) : Bool := strLeL a.data b.data

/-- Truthiness of a Python `str | None` value: `None` and `""` are falsy. -/
def pyTruthy (o : Option String) : Bool :=
  match o with
  | none => false
  | some s => !s.data.isEmpty

/-- Python `a or b` for `str | None` operands. -/
def pyOrStr (a b : Option String) : Option String :=
  if pyTruthy a then a else b

/-! ## Decimal numbers (`decimal.Decimal` as used by `normalize_amount`) -/

/-- Value of a digit list read in base 10. -/
def digitsToNat (cs : List Char) : Nat :=
  cs.foldl (fun n c => 10 * n + (c.toNat - 48)) 0

/-- `cs` is a non-empty run of ASCII digits. -/
def isDigits (cs : List Char) : Bool := !cs.isEmpty && cs.all Char.isDigit

/-- Split a character list at the first `'.'`: the part before it, and
(`some`) the part after it when a dot is present. -/
def splitDot : List Char → List Char × Option (List Char)
  | [] => ([], none)
  | c :: cs =>
    if c = '.' then ([], some cs)
    else
      let (before, after) := splitDot cs
      (c :: before, after)

/-- Parse the string handed to `Decimal(...)` in `normalize_amount`:
an optional leading `'-'`, then digits with at most one `'.'` and at least
one digit.  Returns the sign, the mantissa and the decimal scale
(`value = mantissa / 10 ^ scale`); `none` models `InvalidOperation`. -/
def parseDecimalL (cs : List Char) : Option (Bool × Nat × Nat) :=
  let (neg, body) :=
    match cs with
    | '-' :: rest => (true, rest)
    | _ => (false, cs)
  match splitDot body with
  | (intPart, none) =>
    if isDigits intPart then some (neg, digitsToNat intPart, 0) else none
  | (intPart, some fracPart) =>
    if intPart.all Char.isDigit && fracPart.all Char.isDigit
        && !(intPart.isEmpty && fracPart.isEmpty) && !fracPart.contains '.' then
      some (neg, digitsToNat (intPart ++ fracPart), fracPart.length)
    else none

/-- Round `num / den` to the nearest integer, ties to even (the rounding
CPython's `Decimal.__format__` applies). -/
def roundHalfEvenNat (num den : Nat) : Nat :=
  let q := num / den
  let r := num % den
  if 2 * r < den then q
  else if den < 2 * r then q + 1
  else if q % 2 = 0 then q else q + 1

/-- Zero-pad the decimal rendering of `n` to width `w`. -/
def padZeros (n : Nat) (w : Nat) : String :=
  let s := Nat.repr n
  ⟨List.replicate (w - s.data.length) '0' ++ s.data⟩

/-- `f"{d:.{places}f}"` for a `Decimal` given as sign/mantissa/scale: round
half-to-even to `places` decimal places and render (a negative zero keeps
its sign, as CPython prints `-0.00`). -/
def formatScaled (neg : Bool) (m scale places : Nat) : String :=
  let n := roundHalfEvenNat (m * 10 ^ places) (10 ^ scale)
  let intPart := Nat.repr (n / 10 ^ places)
  let s :=
    if places = 0 then intPart
    else intPart ++ "." ++ padZeros (n % 10 ^ places) places
  if neg then "-" ++ s else s

/-! ## `normalize_amount` (`utils/normalization.py`, lines 84–169) -/

/-- `CURRENCY_SYMBOLS` from `utils/normalization.py`. -/
def CURRENCY_SYMBOLS : List String := ["€", "$", "£", "EUR", "USD", "GBP"]

/-- The `for symbol in CURRENCY_SYMBOLS: clean = clean.replace(symbol, "")`
loop of `normalize_amount`. -/
def stripCurrency (s : String) : String :=
  CURRENCY_SYMBOLS.foldl (fun t sym => pyReplace t sym "") s

/-- `AMOUNT_CLEANUP_PATTERN.sub("", clean)`: drop every character that is
not a digit, `','`, `'.'` or `'-'`. -/
def amountCleanupFilter (s : String) : String :=
  ⟨s.data.filter (fun c => c.isDigit || c = ',' || c = '.' || c = '-')⟩

/-- The cleaned string `normalize_amount` feeds into separator detection:
strip, remove currency symbols, strip, drop other characters. -/
def cleanAmount (value : String) : String :=
  amountCleanupFilter (pyStrip (stripCurrency (pyStrip value)))

/-- The separator-detection block of `normalize_amount` (lines 141–162):
compare the rightmost `','` against the rightmost `'.'`; on a tie (both
absent) fall into the single-separator heuristics. -/
def sepNormalize (clean : List Char) : List Char :=
  let lastComma := rfindPos ',' clean
  let lastPeriod := rfindPos '.' clean
  if lastPeriod < lastComma then
    -- European format: drop '.', turn ',' into '.'
    (clean.filter (fun c => c ≠ '.')).map (fun c => if c = ',' then '.' else c)
  else if lastComma < lastPeriod then
    -- US format: drop ','
    clean.filter (fun c => c ≠ ',')
  else
    -- No decimal separator or ambiguous
    if clean.contains ',' && !clean.contains '.' then
      clean.filter (fun c => c ≠ ',')
    else if clean.contains '.' && !clean.contains ',' then
      match splitDot clean with
      | (_, some fracPart) =>
        if !fracPart.contains '.' && fracPart.length = 3 then
          clean.filter (fun c => c ≠ '.')
        else clean
      | (_, none) => clean
    else clean

/-- `normalize_amount(value, decimal_places)` restricted to
`str | None` inputs (the type the merge layer feeds it). -/
def normalize_amount (value : Option String) (decimalPlaces : Nat := 2) :
    Option String :=
  match value with
  | none => none
  | some v =>
    if (pyStrip v).data.isEmpty then none
    else
      let clean := cleanAmount v
      if clean.data.isEmpty then none
      else
        match parseDecimalL (sepNormalize clean.data) with
        | none => none
        | some (neg, m, scale) => some (formatScaled neg m scale decimalPlaces)

/-! ## `normalize_date` (`utils/normalization.py`, lines 32–81)

`datetime.strptime` instantiated on the nine patterns of `DATE_FORMATS`
and the default output format `"%Y-%m-%d"` (the only output format the
functions modelled here use). -/

/-- Split on every occurrence of a separator character, like Python
`str.split(sep)` (empty pieces kept). -/
def splitSep (sep : Char) : List Char → List (List Char)
  | [] => [[]]
  | c :: cs =>
    let rest := splitSep sep cs
    if c = sep then [] :: rest
    else
      match rest with
      | [] => [[c]]
      | w :: ws => (c :: w) :: ws

/-- `strptime` `%Y`: exactly four digits. -/
def parseYear4 (cs : List Char) : Option Nat :=
  if cs.length = 4 && isDigits cs then some (digitsToNat cs) else none

/-- `strptime` numeric field of one or two digits whose value lies in
`[lo, hi]` (`%d` with `[1, 31]`, `%m` with `[1, 12]`). -/
def parseNum2 (lo hi : Nat) (cs : List Char) : Option Nat :=
  if (cs.length = 1 || cs.length = 2) && isDigits cs then
    let n := digitsToNat cs
    if lo ≤ n && n ≤ hi then some n else none
  else none

/-- Month abbreviations matched by `%b` (C locale, case-insensitive). -/
def MONTH_ABBRS : List String :=
  ["jan", "feb", "mar", "apr", "may", "jun", "jul", "aug", "sep", "oct", "nov", "dec"]

/-- Full month names matched by `%B` (C locale, case-insensitive). -/
def MONTH_NAMES : List String :=
  ["january", "february", "march", "april", "may", "june",
   "july", "august", "september", "october", "november", "december"]

/-- Look a word up in a month-name table, case-insensitively; returns the
month number. -/
def monthFromTable (table : List String) (w : List Char) : Option Nat :=
  match table.findIdx? (fun nm => nm.data = w.map Char.toLower) with
  | some i => some (i + 1)
  | none => none

/-- The nine members of `DATE_FORMATS`, in order. -/
inductive DateFmt
  | isoDash      -- "%Y-%m-%d"
  | euroDash     -- "%d-%m-%Y"
  | euroSlash    -- "%d/%m/%Y"
  | euroDot      -- "%d.%m.%Y"
  | isoSlash     -- "%Y/%m/%d"
  | isoDot       -- "%Y.%m.%d"
  | dayAbbrYear  -- "%d %b %Y"
  | dayFullYear  -- "%d %B %Y"
  | fullDayYear  -- "%B %d, %Y"
deriving DecidableEq

/-- Match a `"%Y<sep>%m<sep>%d"` pattern. -/
def parseIsoLike (sep : Char) (cs : List Char) : Option (Nat × Nat × Nat) :=
  match splitSep sep cs with
  | [a, b, c] =>
    match parseYear4 a, parseNum2 1 12 b, parseNum2 1 31 c with
    | some y, some m, some d => some (y, m, d)
    | _, _, _ => none
  | _ => none

/-- Match a `"%d<sep>%m<sep>%Y"` pattern. -/
def parseEuroLike (sep : Char) (cs : List Char) : Option (Nat × Nat × Nat) :=
  match splitSep sep cs with
  | [a, b, c] =>
    match parseNum2 1 31 a, parseNum2 1 12 b, parseYear4 c with
    | some d, some m, some y => some (y, m, d)
    | _, _, _ => none
  | _ => none

/-- Match `"%d %b %Y"` / `"%d %B %Y"` (format-string blanks match
whitespace runs in `strptime`). -/
def parseDayNameYear (table : List String) (cs : List Char) : Option (Nat × Nat × Nat) :=
  match wordsL cs with
  | [a, b, c] =>
    match parseNum2 1 31 a, monthFromTable table b, parseYear4 c with
    | some d, some m, some y => some (y, m, d)
    | _, _, _ => none
  | _ => none

/-- Match `"%B %d, %Y"`: the comma must directly follow the day. -/
def parseNameDayYear (cs : List Char) : Option (Nat × Nat × Nat) :=
  match wordsL cs with
  | [a, b, c] =>
    match b.reverse with
    | ',' :: dayRev =>
      match monthFromTable MONTH_NAMES a, parseNum2 1 31 dayRev.reverse, parseYear4 c with
      | some m, some d, some y => some (y, m, d)
      | _, _, _ => none
    | _ => none
  | _ => none

/-- Pattern-match one `DATE_FORMATS` entry against the input; the
year/month/day still await the calendar-validity check `datetime` applies. -/
def tryParseFmt : DateFmt → List Char → Option (Nat × Nat × Nat)
  | .isoDash, cs => parseIsoLike '-' cs
  | .euroDash, cs => parseEuroLike '-' cs
  | .euroSlash, cs => parseEuroLike '/' cs
  | .euroDot, cs => parseEuroLike '.' cs
  | .isoSlash, cs => parseIsoLike '/' cs
  | .isoDot, cs => parseIsoLike '.' cs
  | .dayAbbrYear, cs => parseDayNameYear MONTH_ABBRS cs
  | .dayFullYear, cs => parseDayNameYear MONTH_NAMES cs
  | .fullDayYear, cs => parseNameDayYear cs

/-- Gregorian leap year, as `datetime` uses. -/
def isLeapYear (y : Nat) : Bool :=
  y % 4 = 0 && (y % 100 ≠ 0 || y % 400 = 0)

/-- Days in a month. -/
def daysInMonth (y m : Nat) : Nat :=
  if m = 2 then (if isLeapYear y then 29 else 28)
  else if m = 4 || m = 6 || m = 9 || m = 11 then 30
  else 31

/-- The range check `datetime(year, month, day)` performs (a failure raises
`ValueError`, which `normalize_date` catches and treats as a non-match). -/
def validDate (y m d : Nat) : Bool :=
  1 ≤ y && y ≤ 9999 && 1 ≤ m && m ≤ 12 && 1 ≤ d && d ≤ daysInMonth y m

/-- `strftime("%Y-%m-%d")`. -/
def strftimeYmd (y m d : Nat) : String :=
  padZeros y 4 ++ "-" ++ padZeros m 2 ++ "-" ++ padZeros d 2

/-- `DATE_FORMATS` from `utils/normalization.py` (order matters: the first
successful parse wins). -/
def DATE_FORMATS : List DateFmt :=
  [.isoDash, .euroDash, .euroSlash, .euroDot, .isoSlash, .isoDot,
   .dayAbbrYear, .dayFullYear, .fullDayYear]

/-- `normalize_date(value)` at the default output format, restricted to
`str | None` inputs. -/
def normalize_date (value : Option String) : Option String :=
  match value with
  | none => none
  | some v =>
    let clean := pyStrip v
    if clean.data.isEmpty then none
    else
      DATE_FORMATS.findSome? fun fmt =>
        match tryParseFmt fmt clean.data with
        | some (y, m, d) => if validDate y m d then some (strftimeYmd y m d) else none
        | none => none

/-! ## `normalize_text` (`utils/normalization.py`, lines 215–240) -/

/-- `normalize_text(value, max_length)` restricted to `str | None` values
and an `int | None` max_length: collapse whitespace, return `None` when
empty, and truncate to `clean[:max_length - 3] + "..."` when `max_length`
is truthy (non-`None`, non-zero) and exceeded. -/
def normalize_text (value : Option String)
    (max_length : Option Int := none) : Option String :=
  match value with
  | none => none
  | some v =>
    let clean := collapseWs v
    if clean.data.isEmpty then none
    else
      match max_length with
      | none => some clean
      | some ml =>
        if ml ≠ 0 ∧ ml < (clean.data.length : Int) then
          some (pySliceTo clean (ml - 3) ++ "...")
        else some clean

/-! ## `is_empty_value` and `values_match`
(`utils/normalization.py`, lines 328–378) -/

/-- `is_empty_value(value)`: `None` or an empty/whitespace-only string. -/
def is_empty_value (value : Option String) : Bool :=
  match value with
  | none => true
  | some s => (pyStrip s).data.isEmpty

/-- `" ".join(str(value).lower().split())` — the fallback comparison key in
`values_match`. -/
def matchKey (s : String) : String := collapseWs (pyLower s)

/-- `values_match(value1, value2, normalize)` restricted to `str | None`
inputs.  (When control reaches the comparison branches both values are
non-empty strings, so `str(value)` is the string itself.) -/
def values_match (value1 value2 : Option String) (normalize : Bool := true) :
    Bool :=
  if is_empty_value value1 && is_empty_value value2 then true
  else if is_empty_value value1 || is_empty_value value2 then false
  else
    let strCompare :=
      matchKey (value1.getD "") == matchKey (value2.getD "")
    if normalize then
      let norm1 := normalize_amount value1
      let norm2 := normalize_amount value2
      if pyTruthy norm1 && pyTruthy norm2 then norm1 == norm2
      else
        let norm1 := normalize_date value1
        let norm2 := normalize_date value2
        if pyTruthy norm1 && pyTruthy norm2 then norm1 == norm2
        else strCompare
    else strCompare

/-! ## Extraction models (`models/extraction.py`) -/

/-- `FieldType` enum. -/
inductive FieldType
  | STRING | DATE | AMOUNT | NUMBER | INTEGER
deriving DecidableEq

/-- `ExtractedField` dataclass (confidence as `ℚ`). -/
structure ExtractedField where
  name : String
  raw_value : Option String
  normalized_value : Option String := none
  confidence : ℚ := 0
  field_type : FieldType := .STRING
  extraction_notes : Option String := none
deriving DecidableEq

/-- `ExtractedField.has_value`: `normalized_value is not None or
raw_value is not None`. -/
def ExtractedField.has_value (f : ExtractedField) : Bool :=
  f.normalized_value.isSome || f.raw_value.isSome

/-- `ExtractedField.best_value`: `normalized_value or raw_value`. -/
def ExtractedField.best_value (f : ExtractedField) : Option String :=
  pyOrStr f.normalized_value f.raw_value

/-- `ExtractionResult` (its `fields` dict as an insertion-ordered
association list with unique keys). -/
structure ExtractionResult where
  template_id : String
  template_confidence : ℚ
  fields : List (String × ExtractedField)
  extraction_notes : Option String := none
deriving DecidableEq

/-- `ExtractionResult.get_field(name)` / `fields.get(name)`. -/
def ExtractionResult.get_field (e : ExtractionResult) (name : String) :
    Option ExtractedField :=
  e.fields.lookup name

/-- `ProposedChange` dataclass. -/
structure ProposedChange where
  field_name : String
  current_value : Option String
  proposed_value : Option String
  confidence : ℚ
  source : String := "ai"
  reason : Option String := none
deriving DecidableEq

/-! ## Document model (`models/document.py`, the parts the merge uses) -/

/-- `CustomFieldValue` (its `value` restricted to `str | None`). -/
structure CustomFieldValue where
  field : Int
  field_name : Option String := none
  value : Option String
deriving DecidableEq

/-- `Document`, reduced to the attributes `merge_document` reads. -/
structure Document where
  id : Int
  title : String
  custom_fields : List CustomFieldValue := []
deriving DecidableEq

/-- `Document.get_custom_field_value(field_name)`: value of the first
matching custom field, else `None`. -/
def Document.get_custom_field_value (doc : Document) (field_name : String) :
    Option String :=
  match doc.custom_fields.find? (fun cf => cf.field_name == some field_name) with
  | some cf => cf.value
  | none => none

/-! ## Confidence scoring (`services/confidence.py`) -/

/-- `ConfidenceFactor` enum. -/
inductive ConfidenceFactor
  | FIELD_COMPLETENESS | FORMAT_VALIDITY | CROSS_FIELD_CONSISTENCY
  | TEMPLATE_MATCH_QUALITY | REQUIRED_FIELDS_PRESENT
deriving DecidableEq

/-- `ConfidenceScore` dataclass. -/
structure ConfidenceScore where
  overall : ℚ
  field_scores : List (String × ℚ) := []
  factor_scores : List (ConfidenceFactor × ℚ) := []
  explanation : String := ""
deriving DecidableEq

/-- Python `float(s)` for finite decimal literals (optional sign, digits
with at most one `'.'`, optional exponent); `inf`/`nan` names and digit
underscores are not modelled — every string this program hands to
`float` is a normalised or raw field value. -/
def pyFloat (s : String) : Option ℚ :=
  let cs := stripL s.data
  let (neg, cs) :=
    match cs with
    | '-' :: rest => (true, rest)
    | '+' :: rest => (false, rest)
    | _ => (false, cs)
  let intD := cs.takeWhile Char.isDigit
  let rest := cs.dropWhile Char.isDigit
  let (fracD, rest) :=
    match rest with
    | '.' :: r => (r.takeWhile Char.isDigit, r.dropWhile Char.isDigit)
    | _ => ([], rest)
  if intD.isEmpty && fracD.isEmpty then none
  else
    let digits := digitsToNat (intD ++ fracD)
    let signedNum : Int := if neg then -(digits : Int) else digits
    match rest with
    | [] => some (mkRat signedNum (10 ^ fracD.length))
    | e :: r =>
      if e = 'e' || e = 'E' then
        let (eneg, r) :=
          match r with
          | '-' :: r2 => (true, r2)
          | '+' :: r2 => (false, r2)
          | _ => (false, r)
        if isDigits r then
          let ex := digitsToNat r
          some (if eneg then mkRat signedNum (10 ^ fracD.length * 10 ^ ex)
                else mkRat (signedNum * 10 ^ ex) (10 ^ fracD.length))
        else none
      else none

/-- `float(field.normalized_value or field.raw_value or 0)` from
`_score_consistency`: a falsy chain result becomes `float(0)`. -/
def floatOfFieldOr0 (f : ExtractedField) : Option ℚ :=
  match pyOrStr f.normalized_value f.raw_value with
  | none => some 0
  | some s => if s.data.isEmpty then some 0 else pyFloat s

/-- The `# Check: gross >= net (if both present)` block of
`_score_consistency` (lines 198–209), as the (checks_passed, checks_total)
increments it performs: `checks_total` is incremented before the `try`,
and an exception inside the `try` leaves `checks_passed` untouched. -/
def grossNetCheckIncr (extraction : ExtractionResult) : Nat × Nat :=
  match extraction.get_field "total_gross", extraction.get_field "total_net" with
  | some gross, some net =>
    if gross.has_value && net.has_value then
      match floatOfFieldOr0 gross, floatOfFieldOr0 net with
      | some gross_val, some net_val =>
        if net_val ≤ gross_val then (1, 1) else (0, 1)
      | _, _ => (0, 1)  -- ValueError / TypeError: `pass`
    else (0, 0)
  | _, _ => (0, 0)

/-- The `# Check: due_date > issue_date (if both present)` block of
`_score_consistency` (lines 211–219), as the (checks_passed, checks_total)
increments it performs. -/
def dueIssueCheckIncr (extraction : ExtractionResult) : Nat × Nat :=
  match extraction.get_field "issue_date", extraction.get_field "due_date" with
  | some issue, some due =>
    if issue.has_value && due.has_value then
      match pyOrStr issue.normalized_value issue.raw_value,
            pyOrStr due.normalized_value due.raw_value with
      | some issue_val, some due_val =>
        if !issue_val.data.isEmpty && !due_val.data.isEmpty
            && pyStrLe issue_val due_val then (1, 1) else (0, 1)
      | _, _ => (0, 1)
    else (0, 0)
  | _, _ => (0, 0)

/-- `ConfidenceScorer._score_consistency(extraction)` (lines 188–225):
the two conditional checks accumulate (checks_passed, checks_total), and
the score is `checks_passed / checks_total`, or 1.0 with no applicable
check. -/
def score_consistency (extraction : ExtractionResult) : ℚ :=
  let checks1 :=
    (0 + (grossNetCheckIncr extraction).1, 0 + (grossNetCheckIncr extraction).2)
  let checks2 :=
    (checks1.1 + (dueIssueCheckIncr extraction).1,
     checks1.2 + (dueIssueCheckIncr extraction).2)
  if checks2.2 = 0 then 1 else mkRat checks2.1 checks2.2

/-! ## Merge strategy (`services/merge.py`) -/

/-- `MergeDecision` enum. -/
inductive MergeDecision
  | KEEP_EXISTING | USE_AI | NEEDS_REVIEW | SKIP
deriving DecidableEq

/-- `FieldMergeResult` dataclass. -/
structure FieldMergeResult where
  field_name : String
  existing_value : Option String
  ai_value : Option String
  ai_confidence : ℚ
  decision : MergeDecision
  final_value : Option String
  reason : String
deriving DecidableEq

/-- `FieldMergeResult.is_change`. -/
def FieldMergeResult.is_change (r : FieldMergeResult) : Bool :=
  r.decision == .USE_AI || r.decision == .NEEDS_REVIEW

/-- `FieldMergeResult.is_auto_apply`. -/
def FieldMergeResult.is_auto_apply (r : FieldMergeResult) : Bool :=
  r.decision == .USE_AI

/-- `MergeResult` dataclass. -/
structure MergeResult where
  field_results : List FieldMergeResult
  auto_apply_changes : List ProposedChange
  review_changes : List ProposedChange
  kept_existing : List String
deriving DecidableEq

/-- `MergeResult.has_changes`. -/
def MergeResult.has_changes (m : MergeResult) : Bool :=
  !m.auto_apply_changes.isEmpty || !m.review_changes.isEmpty

/-- `MergeResult.needs_review`: `bool(self.review_changes)`. -/
def MergeResult.needs_review (m : MergeResult) : Bool :=
  !m.review_changes.isEmpty

/-- `f"{q:.0%}"`: the confidence as an integer percentage (the value times
100, rounded half-to-even). -/
def pctFmt (q : ℚ) : String :=
  if q.num < 0 then "-" ++ Nat.repr (roundHalfEvenNat (100 * q.num.natAbs) q.den) ++ "%"
  else Nat.repr (roundHalfEvenNat (100 * q.num.toNat) q.den) ++ "%"

/-- `MergeStrategy` with its two thresholds (defaults 0.7 / 0.9). -/
structure MergeStrategy where
  auto_apply_threshold : ℚ := mkRat 7 10
  suggestion_threshold : ℚ := mkRat 9 10
deriving DecidableEq

/-- `MergeStrategy.merge_field(field_name, existing_value, ai_value,
ai_confidence)` — the decision cases of lines 94–218 in order. -/
def MergeStrategy.merge_field (self : MergeStrategy) (field_name : String)
    (existing_value ai_value : Option String) (ai_confidence : ℚ) :
    FieldMergeResult :=
  let existing_empty := is_empty_value existing_value
  let ai_empty := is_empty_value ai_value
  -- Case 1: Neither has a value
  if existing_empty && ai_empty then
    { field_name := field_name, existing_value := existing_value,
      ai_value := ai_value, ai_confidence := ai_confidence,
      decision := .SKIP, final_value := none,
      reason := "No value from either source" }
  -- Case 2: Only existing has value (AI did not extract)
  else if !existing_empty && ai_empty then
    { field_name := field_name, existing_value := existing_value,
      ai_value := ai_value, ai_confidence := ai_confidence,
      decision := .KEEP_EXISTING, final_value := existing_value,
      reason := "AI did not extract this field" }
  -- Case 3: Only AI has value (existing is empty) — fill
  else if existing_empty && !ai_empty then
    if self.auto_apply_threshold ≤ ai_confidence then
      { field_name := field_name, existing_value := existing_value,
        ai_value := ai_value, ai_confidence := ai_confidence,
        decision := .USE_AI, final_value := ai_value,
        reason := "Filling empty field (confidence: " ++ pctFmt ai_confidence ++ ")" }
    else
      { field_name := field_name, existing_value := existing_value,
        ai_value := ai_value, ai_confidence := ai_confidence,
        decision := .NEEDS_REVIEW, final_value := existing_value,
        reason := "Low confidence (" ++ pctFmt ai_confidence ++ "), needs review" }
  -- Case 4: Both have values — compare
  else if values_match existing_value ai_value then
    { field_name := field_name, existing_value := existing_value,
      ai_value := ai_value, ai_confidence := ai_confidence,
      decision := .KEEP_EXISTING, final_value := existing_value,
      reason := "AI agrees with existing value" }
  else if self.suggestion_threshold ≤ ai_confidence then
    { field_name := field_name, existing_value := existing_value,
      ai_value := ai_value, ai_confidence := ai_confidence,
      decision := .NEEDS_REVIEW, final_value := existing_value,
      reason := "AI suggests different value (confidence: " ++ pctFmt ai_confidence ++ ")" }
  else
    { field_name := field_name, existing_value := existing_value,
      ai_value := ai_value, ai_confidence := ai_confidence,
      decision := .KEEP_EXISTING, final_value := existing_value,
      reason := "AI confidence too low to suggest change (" ++ pctFmt ai_confidence ++ ")" }

/-- The `ProposedChange` the `merge_document` loop builds from a field's
merge result (both its branches construct exactly this). -/
def changeOfResult (r : FieldMergeResult) : ProposedChange :=
  { field_name := r.field_name, current_value := r.existing_value,
    proposed_value := r.ai_value, confidence := r.ai_confidence,
    source := "ai", reason := some r.reason }

/-- `MergeStrategy.merge_document(document, extraction, field_mapping,
confidence)` (lines 220–305): iterate the field mapping, skip entries the
extraction lacks, merge each field, and partition by decision.  The
`confidence` parameter mirrors the Python signature (its body never reads
it). -/
def MergeStrategy.merge_document (self : MergeStrategy) (document : Document)
    (extraction : ExtractionResult) (field_mapping : List (String × String))
    (confidence : ConfidenceScore) : MergeResult :=
  match field_mapping with
  | [] =>
    { field_results := [], auto_apply_changes := [],
      review_changes := [], kept_existing := [] }
  | (extracted_name, paperless_name) :: rest =>
    let tail := self.merge_document document extraction rest confidence
    match extraction.fields.lookup extracted_name with
    | none => tail  -- `if not ai_field: continue`
    | some ai_field =>
      let ai_value := pyOrStr ai_field.normalized_value ai_field.raw_value
      let ai_confidence := ai_field.confidence
      let existing_value := document.get_custom_field_value paperless_name
      let result := self.merge_field paperless_name existing_value ai_value ai_confidence
      { field_results := result :: tail.field_results
        auto_apply_changes :=
          (if result.decision = .USE_AI then [changeOfResult result] else [])
            ++ tail.auto_apply_changes
        review_changes :=
          (if result.decision = .NEEDS_REVIEW then [changeOfResult result] else [])
            ++ tail.review_changes
        kept_existing :=
          (if result.decision = .KEEP_EXISTING then [paperless_name] else [])
            ++ tail.kept_existing }

/-- `MergeStrategy.merge_title(existing_title, proposed_title, confidence)`
(lines 307–364). -/
def MergeStrategy.merge_title (self : MergeStrategy)
    (existing_title proposed_title : String) (confidence : ℚ) :
    FieldMergeResult :=
  let is_default_title :=
    "document".data.isPrefixOf (pyLower existing_title).data
      || "scan".data.isPrefixOf (pyLower existing_title).data
      || existing_title.data.length < 10
  if is_default_title && self.auto_apply_threshold ≤ confidence then
    { field_name := "title", existing_value := some existing_title,
      ai_value := some proposed_title, ai_confidence := confidence,
      decision := .USE_AI, final_value := some proposed_title,
      reason := "Replacing default/auto-generated title" }
  else if values_match (some existing_title) (some proposed_title) then
    { field_name := "title", existing_value := some existing_title,
      ai_value := some proposed_title, ai_confidence := confidence,
      decision := .KEEP_EXISTING, final_value := some existing_title,
      reason := "AI agrees with existing title" }
  else
    { field_name := "title", existing_value := some existing_title,
      ai_value := some proposed_title, ai_confidence := confidence,
      decision := .NEEDS_REVIEW, final_value := some existing_title,
      reason := "Title change requires review" }

/-! ## Properties of `rfind` and separator detection -/

theorem rfindPos_nonneg_iff (c : Char) (cs : List Char) :
    0 ≤ rfindPos c cs ↔ c ∈ cs := by
  induction cs with
  | nil => simp [rfindPos]
  | cons a as ih =>
    simp only [rfindPos, List.mem_cons]
    split_ifs with h1 h2
    · constructor
      · intro _; exact Or.inr (ih.mp h1)
      · intro _; omega
    · constructor
      · intro _; exact Or.inl h2.symm
      · intro _; omega
    · constructor
      · intro h; omega
      · rintro (rfl | hmem)
        · exact absurd rfl h2
        · exact absurd (ih.mpr hmem) h1

theorem rfindPos_eq_neg_one (c : Char) (cs : List Char) (h : c ∉ cs) :
    rfindPos c cs = -1 := by
  have h1 : ¬ 0 ≤ rfindPos c cs := fun hle => h ((rfindPos_nonneg_iff c cs).mp hle)
  induction cs with
  | nil => rfl
  | cons a as ih =>
    have hmem : c ∉ as := fun hm => h (List.mem_cons_of_mem a hm)
    have hne : a ≠ c := fun he => h (he ▸ List.mem_cons_self a as)
    have : ¬ 0 ≤ rfindPos c as :=
      fun hle => hmem ((rfindPos_nonneg_iff c as).mp hle)
    simp [rfindPos, this, hne]

/-- Distinct characters that both occur in a list have distinct rightmost
positions. -/
theorem rfindPos_ne_of_mem {c₁ c₂ : Char} (hne : c₁ ≠ c₂) :
    ∀ cs : List Char, c₁ ∈ cs → c₂ ∈ cs →
      rfindPos c₁ cs ≠ rfindPos c₂ cs := by
  intro cs
  induction cs with
  | nil => simp
  | cons a as ih =>
    intro h₁ h₂
    by_cases m₁ : c₁ ∈ as <;> by_cases m₂ : c₂ ∈ as
    · have g₁ : 0 ≤ rfindPos c₁ as := (rfindPos_nonneg_iff c₁ as).mpr m₁
      have g₂ : 0 ≤ rfindPos c₂ as := (rfindPos_nonneg_iff c₂ as).mpr m₂
      have hih := ih m₁ m₂
      simp only [rfindPos, if_pos g₁, if_pos g₂]
      omega
    · have g₁ : 0 ≤ rfindPos c₁ as := (rfindPos_nonneg_iff c₁ as).mpr m₁
      have e₂ : rfindPos c₂ (a :: as) = 0 := by
        have ha : a = c₂ := by
          rcases List.mem_cons.mp h₂ with h | h

          · exact h.symm
          · exact absurd h m₂
        have : ¬ 0 ≤ rfindPos c₂ as :=
          fun hle => m₂ ((rfindPos_nonneg_iff c₂ as).mp hle)
        simp [rfindPos, this, ha]
      have e₁ : rfindPos c₁ (a :: as) = rfindPos c₁ as + 1 := by
        simp [rfindPos, if_pos g₁]
      rw [e₁, e₂]
      omega
    · have g₂ : 0 ≤ rfindPos c₂ as := (rfindPos_nonneg_iff c₂ as).mpr m₂
      have e₁ : rfindPos c₁ (a :: as) = 0 := by
        have ha : a = c₁ := by
          rcases List.mem_cons.mp h₁ with h | h

          · exact h.symm
          · exact absurd h m₁
        have : ¬ 0 ≤ rfindPos c₁ as :=
          fun hle => m₁ ((rfindPos_nonneg_iff c₁ as).mp hle)
        simp [rfindPos, this, ha]
      have e₂ : rfindPos c₂ (a :: as) = rfindPos c₂ as + 1 := by
        simp [rfindPos, if_pos g₂]
      rw [e₁, e₂]
      omega
    · exfalso
      have ha₁ : a = c₁ := by
        rcases List.mem_cons.mp h₁ with h | h
        · exact h.symm
        · exact absurd h m₁
      have ha₂ : a = c₂ := by
        rcases List.mem_cons.mp h₂ with h | h
        · exact h.symm
        · exact absurd h m₂
      exact hne (ha₁ ▸ ha₂)

/-- Commas-only input takes the European branch of the separator
detection: every comma becomes a decimal point. -/
theorem sepNormalize_comma_only {cs : List Char} (h₁ : ',' ∈ cs)
    (h₂ : '.' ∉ cs) :
    sepNormalize cs = cs.map (fun c => if c = ',' then '.' else c) := by
  have hc : 0 ≤ rfindPos ',' cs := (rfindPos_nonneg_iff ',' cs).mpr h₁
  have hp : rfindPos '.' cs = -1 := rfindPos_eq_neg_one '.' cs h₂
  have hfilter : cs.filter (fun c => c ≠ '.') = cs :=
    List.filter_eq_self.mpr fun c hc => by
      simp only [ne_eq, decide_eq_true_eq]
      exact fun he => h₂ (he ▸ hc)
  simp only [sepNormalize]
  rw [if_pos (by omega : rfindPos '.' cs < rfindPos ',' cs), hfilter]

/-- Period-only input takes the US branch of the separator detection: the
cleaned string is passed through unchanged (each period kept as a decimal
point, however many digits follow it). -/
theorem sepNormalize_period_only {cs : List Char} (h₁ : '.' ∈ cs)
    (h₂ : ',' ∉ cs) :
    sepNormalize cs = cs := by
  have hp : 0 ≤ rfindPos '.' cs := (rfindPos_nonneg_iff '.' cs).mpr h₁
  have hc : rfindPos ',' cs = -1 := rfindPos_eq_neg_one ',' cs h₂
  have hfilter : cs.filter (fun c => c ≠ ',') = cs :=
    List.filter_eq_self.mpr fun c hcm => by
      simp only [ne_eq, decide_eq_true_eq]
      exact fun he => h₂ (he ▸ hcm)
  simp only [sepNormalize]
  rw [if_neg (by omega : ¬ rfindPos '.' cs < rfindPos ',' cs),
    if_pos (by omega : rfindPos ',' cs < rfindPos '.' cs), hfilter]

/-- Modelled from the spec's words (§4.1, `normalize_amount`): whichever of
`','` and `'.'` occurs rightmost is the decimal separator; the other, if
present, is a thousands separator and is stripped. -/
def specRightmostDecimal (cs : List Char) : List Char :=
  if rfindPos '.' cs < rfindPos ',' cs then
    (cs.filter (fun c => c ≠ '.')).map (fun c => if c = ',' then '.' else c)
  else
    cs.filter (fun c => c ≠ ',')

/-- When both separators occur, the detection block agrees with the spec's
rightmost-separator rule (the single-separator fallback is unreachable
because the two rightmost positions cannot coincide). -/
theorem sepNormalize_both {cs : List Char} (h₁ : ',' ∈ cs)
    (h₂ : '.' ∈ cs) :
    sepNormalize cs = specRightmostDecimal cs := by
  have hne : rfindPos ',' cs ≠ rfindPos '.' cs :=
    rfindPos_ne_of_mem (by decide) cs h₁ h₂
  simp only [sepNormalize, specRightmostDecimal]
  rcases lt_trichotomy (rfindPos '.' cs) (rfindPos ',' cs) with h | h | h
  · rw [if_pos h, if_pos h]
  · exact absurd h.symm hne
  · rw [if_neg (by omega : ¬ rfindPos '.' cs < rfindPos ',' cs), if_pos h,
      if_neg (by omega : ¬ rfindPos '.' cs < rfindPos ',' cs)]

/-! ## Claim C3 — single-separator amounts -/

/-- C3 counterexample: `normalize_amount("12.345")` returns `"12.34"`,
not the `"12345.00"` the claim asserts — a single period is never treated
as a thousands separator, because `rfind` puts any period-only string into
the US branch before the single-separator heuristics are consulted. -/
theorem normalize_amount_period_thousands_counterexample :
    normalize_amount (some "12.345") = some "12.34"
      ∧ normalize_amount (some "12.345") ≠ some "12345.00" := by
  constructor
  · decide
  · decide

/-- C3 (amended): for amount strings with only one separator type after
cleanup, a commas-only string takes the European branch (every comma
becomes a decimal point) and a periods-only string takes the US branch
(the string is kept unchanged, the period acting as decimal point
regardless of how many digits follow); in particular
`normalize_amount("12.345") = "12.34"` and
`normalize_amount("1,234") = "1.23"`. -/
theorem normalize_amount_single_separator (s : String) :
    (',' ∈ (cleanAmount s).data → '.' ∉ (cleanAmount s).data →
      sepNormalize (cleanAmount s).data
        = (cleanAmount s).data.map (fun c => if c = ',' then '.' else c))
    ∧ ('.' ∈ (cleanAmount s).data → ',' ∉ (cleanAmount s).data →
      sepNormalize (cleanAmount s).data = (cleanAmount s).data)
    ∧ normalize_amount (some "12.345") = some "12.34"
    ∧ normalize_amount (some "1,234") = some "1.23" := by
  refine ⟨fun h₁ h₂ => sepNormalize_comma_only h₁ h₂,
    fun h₁ h₂ => sepNormalize_period_only h₁ h₂, by decide, by decide⟩

theorem normalize_amount_single_separator_witness :
    sepNormalize (cleanAmount "1,234").data
        = (cleanAmount "1,234").data.map (fun c => if c = ',' then '.' else c)
      ∧ sepNormalize (cleanAmount "12.345").data = (cleanAmount "12.345").data :=
  ⟨(normalize_amount_single_separator "1,234").1 (by decide) (by decide),
   (normalize_amount_single_separator "12.345").2.1 (by decide) (by decide)⟩

/-! ## Claim C4 — both separators present -/

/-- C4: for every amount string in which both a comma and a period survive
cleanup, the rightmost of the two becomes the decimal separator and the
other is stripped as a thousands separator; consequently the European form
`"1.234,56"` and the US form `"1,234.56"` both normalise to the identical
canonical string `"1234.56"`. -/
theorem normalize_amount_rightmost_separator (s : String) :
    (',' ∈ (cleanAmount s).data → '.' ∈ (cleanAmount s).data →
      sepNormalize (cleanAmount s).data
        = specRightmostDecimal (cleanAmount s).data)
    ∧ normalize_amount (some "1.234,56") = some "1234.56"
    ∧ normalize_amount (some "1,234.56") = some "1234.56" := by
  refine ⟨fun h₁ h₂ => sepNormalize_both h₁ h₂, by decide, by decide⟩

theorem normalize_amount_rightmost_separator_witness :
    sepNormalize (cleanAmount "1.234,56").data
        = specRightmostDecimal (cleanAmount "1.234,56").data
      ∧ sepNormalize (cleanAmount "1,234.56").data
        = specRightmostDecimal (cleanAmount "1,234.56").data :=
  ⟨(normalize_amount_rightmost_separator "1.234,56").1 (by decide) (by decide),
   (normalize_amount_rightmost_separator "1,234.56").1 (by decide) (by decide)⟩

/-! ## Claim C6 — `has_value` -/

/-- Modelled from the spec's words (§3, C6): "`has_value` ⟺
normalized_value or raw_value is non-null/non-empty". -/
def hasValueSpecNonEmpty (f : ExtractedField) : Bool :=
  (match f.normalized_value with
   | some s => !s.data.isEmpty
   | none => false)
    || (match f.raw_value with
        | some s => !s.data.isEmpty
        | none => false)

/-- C6 counterexample: a field whose only value is the empty string.  The
source's `has_value` tests `is not None` only, so it holds, while the
claim's non-null-and-non-empty reading rejects it. -/
theorem has_value_empty_string_counterexample :
    ExtractedField.has_value
        { name := "x", raw_value := some "", normalized_value := none } = true
      ∧ hasValueSpecNonEmpty
        { name := "x", raw_value := some "", normalized_value := none } = false := by
  constructor
  · rfl
  · rfl

/-- C6 (amended): `has_value` holds iff `normalized_value` or `raw_value`
is non-null; in particular a field whose only value is the empty string
does have a value. -/
theorem has_value_iff_non_null (f : ExtractedField) :
    (f.has_value = true ↔ f.normalized_value ≠ none ∨ f.raw_value ≠ none)
      ∧ ExtractedField.has_value
        { name := "x", raw_value := some "", normalized_value := none } = true := by
  constructor
  · simp [ExtractedField.has_value, Option.isSome_iff_ne_none]
  · rfl

/-! ## Claims C1 and C2 — the `merge_field` decision table -/

/-- Modelled from the spec's decision table (§4.3), read top to bottom. -/
def specTableDecision (strat : MergeStrategy) (existing ai : Option String)
    (conf : ℚ) : MergeDecision :=
  if is_empty_value existing && is_empty_value ai then .SKIP
  else if !is_empty_value existing && is_empty_value ai then .KEEP_EXISTING
  else if is_empty_value existing && !is_empty_value ai then
    (if strat.auto_apply_threshold ≤ conf then .USE_AI else .NEEDS_REVIEW)
  else if values_match existing ai then .KEEP_EXISTING
  else if strat.suggestion_threshold ≤ conf then .NEEDS_REVIEW
  else .KEEP_EXISTING

/-- The final value of each row of the spec's decision table (§4.3):
`null` on SKIP, the AI value on USE_AI, the existing value otherwise. -/
def specTableFinal (strat : MergeStrategy) (existing ai : Option String)
    (conf : ℚ) : Option String :=
  match specTableDecision strat existing ai conf with
  | .SKIP => none
  | .USE_AI => ai
  | _ => existing

/-- C1: `merge_field` returns exactly the decision of the §4.3 table
evaluated in order, its final value is the table's, and the final value
equals the existing value whenever the decision is KEEP_EXISTING or
NEEDS_REVIEW. -/
theorem merge_field_matches_decision_table (strat : MergeStrategy)
    (fn : String) (existing ai : Option String) (conf : ℚ) :
    (strat.merge_field fn existing ai conf).decision
        = specTableDecision strat existing ai conf
    ∧ (strat.merge_field fn existing ai conf).final_value
        = specTableFinal strat existing ai conf
    ∧ ((strat.merge_field fn existing ai conf).decision = .KEEP_EXISTING
        ∨ (strat.merge_field fn existing ai conf).decision = .NEEDS_REVIEW
        → (strat.merge_field fn existing ai conf).final_value = existing) := by
  unfold MergeStrategy.merge_field specTableFinal specTableDecision
  cases hE : is_empty_value existing <;> cases hA : is_empty_value ai <;>
    simp only [hE, hA, Bool.true_and, Bool.false_and, Bool.and_true,
      Bool.and_false, Bool.not_true, Bool.not_false, Bool.and_self,
      if_true, if_false, cond_true, cond_false] <;>
    (try split_ifs) <;> simp_all

theorem merge_field_matches_decision_table_witness :
    (MergeStrategy.merge_field {} "x" (some "100.00") (some "200.00")
        (mkRat 95 100)).final_value = some "100.00" := by
  have h := merge_field_matches_decision_table {} "x" (some "100.00")
    (some "200.00") (mkRat 95 100)
  exact h.2.2 (Or.inr (by decide))

/-- C2: when the existing value is non-empty, `merge_field` never decides
USE_AI — an overwrite is never auto-applied. -/
theorem merge_field_never_overwrites (strat : MergeStrategy) (fn : String)
    (existing ai : Option String) (conf : ℚ)
    (h : is_empty_value existing = false) :
    (strat.merge_field fn existing ai conf).decision ≠ .USE_AI := by
  unfold MergeStrategy.merge_field
  cases hA : is_empty_value ai <;>
    simp only [h, hA, Bool.true_and, Bool.false_and, Bool.and_true,
      Bool.and_false, Bool.not_true, Bool.not_false, Bool.and_self,
      if_true, if_false] <;>
    split_ifs <;> simp

theorem merge_field_never_overwrites_witness :
    (MergeStrategy.merge_field {} "x" (some "100.00") (some "200.00")
        (1 : ℚ)).decision ≠ .USE_AI :=
  merge_field_never_overwrites {} "x" (some "100.00") (some "200.00") 1
    (by decide)

/-! ## Claim C7 — `merge_title` -/

/-- Modelled from the spec's words (§4.3, `merge_title`): a title is a
"default" placeholder iff it starts with "document" or "scan"
(case-insensitive) or has length < 10 characters. -/
def isDefaultTitleSpec (t : String) : Bool :=
  "document".data.isPrefixOf (pyLower t).data
    || "scan".data.isPrefixOf (pyLower t).data
    || t.data.length < 10

/-- C7: `merge_title` decides USE_AI (with the proposed title as final
value) exactly when the existing title is a default placeholder and the
confidence reaches the auto-apply threshold; in every other situation it
keeps the existing title when the titles match by `values_match` and
otherwise routes to NEEDS_REVIEW, whatever the confidence — there is no
auto-apply path over a non-default title. -/
theorem merge_title_policy (strat : MergeStrategy) (et pt : String)
    (conf : ℚ) :
    ((strat.merge_title et pt conf).decision = .USE_AI
        ↔ isDefaultTitleSpec et = true ∧ strat.auto_apply_threshold ≤ conf)
    ∧ ((strat.merge_title et pt conf).decision = .USE_AI →
        (strat.merge_title et pt conf).final_value = some pt)
    ∧ (¬(isDefaultTitleSpec et = true ∧ strat.auto_apply_threshold ≤ conf) →
        (strat.merge_title et pt conf).decision
          = (if values_match (some et) (some pt) then .KEEP_EXISTING
             else .NEEDS_REVIEW)
        ∧ (strat.merge_title et pt conf).final_value = some et) := by
  unfold MergeStrategy.merge_title isDefaultTitleSpec
  simp only [Bool.or_eq_true, Bool.and_eq_true, decide_eq_true_eq]
  split_ifs <;> simp_all

theorem merge_title_policy_witness :
    (MergeStrategy.merge_title {} "Scan_2025-01-15"
        "2025-01-15 | Invoice | 123.45 EUR" (mkRat 8 10)).decision = .USE_AI
      ∧ (MergeStrategy.merge_title {} "My custom invoice title from January"
        "2025-01-15 | Invoice | 123.45 EUR" (1 : ℚ)).decision = .NEEDS_REVIEW := by
  constructor
  · exact (merge_title_policy {} "Scan_2025-01-15"
      "2025-01-15 | Invoice | 123.45 EUR" (mkRat 8 10)).1.mpr
      ⟨by decide, by decide⟩
  · have h := (merge_title_policy {} "My custom invoice title from January"
      "2025-01-15 | Invoice | 123.45 EUR" (1 : ℚ)).2.2
      (by intro hc; exact absurd hc.1 (by decide))
    rw [h.1]
    decide

/-! ## Claim C5 — cross-field-consistency scoring -/

/-- The gross/net consistency check is applicable when both fields are
present with values (amended claim: applicability does not depend on the
values parsing). -/
def grossNetApplicable (e : ExtractionResult) : Bool :=
  match e.get_field "total_gross", e.get_field "total_net" with
  | some gross, some net => gross.has_value && net.has_value
  | _, _ => false

/-- The gross/net check passes when it is applicable, both values parse as
numbers and gross ≥ net (amended claim: a parse failure leaves the check
applicable but failed). -/
def grossNetPassed (e : ExtractionResult) : Bool :=
  match e.get_field "total_gross", e.get_field "total_net" with
  | some gross, some net =>
    (gross.has_value && net.has_value) &&
      (match floatOfFieldOr0 gross, floatOfFieldOr0 net with
       | some gross_val, some net_val => decide (net_val ≤ gross_val)
       | _, _ => false)
  | _, _ => false

/-- The due/issue date check is applicable when both fields are present
with values. -/
def dueIssueApplicable (e : ExtractionResult) : Bool :=
  match e.get_field "issue_date", e.get_field "due_date" with
  | some issue, some due => issue.has_value && due.has_value
  | _, _ => false

/-- The due/issue check passes when it is applicable, both
normalized-or-raw values are truthy and `due ≥ issue` as strings. -/
def dueIssuePassed (e : ExtractionResult) : Bool :=
  match e.get_field "issue_date", e.get_field "due_date" with
  | some issue, some due =>
    (issue.has_value && due.has_value) &&
      (match pyOrStr issue.normalized_value issue.raw_value,
             pyOrStr due.normalized_value due.raw_value with
       | some issue_val, some due_val =>
         !issue_val.data.isEmpty && !due_val.data.isEmpty
           && pyStrLe issue_val due_val
       | _, _ => false)
  | _, _ => false

/-- Number of applicable consistency checks. -/
def consistencyApplicable (e : ExtractionResult) : Nat :=
  (if grossNetApplicable e then 1 else 0)
    + (if dueIssueApplicable e then 1 else 0)

/-- Number of passed consistency checks. -/
def consistencyPassed (e : ExtractionResult) : Nat :=
  (if grossNetPassed e then 1 else 0)
    + (if dueIssuePassed e then 1 else 0)

/-- An extraction whose gross total fails to parse as a number while the
net total parses. -/
def consistencyParseFailureInput : ExtractionResult :=
  { template_id := "t", template_confidence := 1,
    fields :=
      [("total_gross", { name := "total_gross", raw_value := some "abc" }),
       ("total_net", { name := "total_net", raw_value := some "1" })] }

/-- C5 counterexample: with `total_gross = "abc"` and `total_net = "1"`
both present, the claim's reading (a parse failure skips the check, so no
check is applicable) predicts a factor score of 1.0; the code counts the
check as applicable before attempting the parse and scores 0. -/
theorem score_consistency_parse_failure_counterexample :
    score_consistency consistencyParseFailureInput = mkRat 0 1
      ∧ score_consistency consistencyParseFailureInput ≠ mkRat 1 1 := by
  constructor
  · decide
  · decide

/-- C5 (amended): the cross-field-consistency factor equals passed checks
over applicable checks — where a check on present-with-value fields counts
as applicable even when a value fails to parse, and a parse failure makes
it fail — and equals 1.0 when no checks are applicable. -/
theorem score_consistency_counts (e : ExtractionResult) :
    score_consistency e =
      if consistencyApplicable e = 0 then 1
      else mkRat (consistencyPassed e) (consistencyApplicable e) := by
  have h1 : grossNetCheckIncr e
      = ((if grossNetPassed e then 1 else 0 : Nat),
         (if grossNetApplicable e then 1 else 0 : Nat)) := by
    unfold grossNetCheckIncr grossNetPassed grossNetApplicable
    rcases hg : e.get_field "total_gross" with _ | gross <;>
      rcases hn : e.get_field "total_net" with _ | net <;>
      try (simp; done)
    cases hv : gross.has_value && net.has_value
    · simp [hv]
    · rcases hf : floatOfFieldOr0 gross with _ | gv <;>
        rcases hf2 : floatOfFieldOr0 net with _ | nv <;>
        simp [hv, hf, hf2] <;> split_ifs <;> simp_all
  have h2 : dueIssueCheckIncr e
      = ((if dueIssuePassed e then 1 else 0 : Nat),
         (if dueIssueApplicable e then 1 else 0 : Nat)) := by
    unfold dueIssueCheckIncr dueIssuePassed dueIssueApplicable
    rcases hi : e.get_field "issue_date" with _ | issue <;>
      rcases hd : e.get_field "due_date" with _ | due <;>
      try (simp; done)
    cases hv : issue.has_value && due.has_value
    · simp [hv]
    · rcases hp : pyOrStr issue.normalized_value issue.raw_value with _ | iv <;>
        rcases hp2 : pyOrStr due.normalized_value due.raw_value with _ | dv <;>
        simp [hv, hp, hp2] <;> split_ifs <;> simp_all
  unfold score_consistency consistencyApplicable consistencyPassed
  rw [h1, h2]
  simp only [Nat.zero_add]

/-! ## Claim C8 — `merge_document` partitions -/

/-- `merge_field` labels its result with the field name it was given. -/
theorem merge_field_field_name (strat : MergeStrategy) (fn : String)
    (existing ai : Option String) (conf : ℚ) :
    (strat.merge_field fn existing ai conf).field_name = fn := by
  simp only [MergeStrategy.merge_field]
  split_ifs <;> rfl

/-- The merge result `merge_document` produces for one mapping entry. -/
def entryResult (strat : MergeStrategy) (doc : Document)
    (ext : ExtractionResult) (p : String × String) :
    Option FieldMergeResult :=
  (ext.fields.lookup p.1).map fun f =>
    strat.merge_field p.2 (doc.get_custom_field_value p.2)
      (pyOrStr f.normalized_value f.raw_value) f.confidence

/-- C8: every mapping entry present in the extraction contributes exactly
one `FieldMergeResult` (absent entries none); the three partitions are
exactly the USE_AI, NEEDS_REVIEW and KEEP_EXISTING results (so SKIP
results appear in none of them); and `needs_review` holds iff the review
partition is non-empty. -/
theorem merge_document_partitions (strat : MergeStrategy) (doc : Document)
    (ext : ExtractionResult) (mapping : List (String × String))
    (conf : ConfidenceScore) :
    (strat.merge_document doc ext mapping conf).field_results
        = mapping.filterMap (entryResult strat doc ext)
    ∧ (strat.merge_document doc ext mapping conf).auto_apply_changes
        = ((strat.merge_document doc ext mapping conf).field_results.filter
            (fun r => r.decision == .USE_AI)).map changeOfResult
    ∧ (strat.merge_document doc ext mapping conf).review_changes
        = ((strat.merge_document doc ext mapping conf).field_results.filter
            (fun r => r.decision == .NEEDS_REVIEW)).map changeOfResult
    ∧ (strat.merge_document doc ext mapping conf).kept_existing
        = ((strat.merge_document doc ext mapping conf).field_results.filter
            (fun r => r.decision == .KEEP_EXISTING)).map
            (fun r => r.field_name)
    ∧ ((strat.merge_document doc ext mapping conf).needs_review = true
        ↔ (strat.merge_document doc ext mapping conf).review_changes ≠ []) := by
  induction mapping with
  | nil =>
    refine ⟨rfl, rfl, rfl, rfl, ?_⟩
    simp [MergeStrategy.merge_document, MergeResult.needs_review]
  | cons p rest ih =>
    obtain ⟨ih1, ih2, ih3, ih4, _⟩ := ih
    obtain ⟨en, pn⟩ := p
    have hrev : ∀ m : MergeResult, (m.needs_review = true ↔ m.review_changes ≠ []) := by
      intro m
      simp [MergeResult.needs_review, List.isEmpty_iff]
    rcases hl : ext.fields.lookup en with _ | f
    · refine ⟨?_, ?_, ?_, ?_, hrev _⟩ <;>
        simp only [MergeStrategy.merge_document, hl, List.filterMap_cons,
          entryResult, Option.map_none, ih1, ih2, ih3, ih4]
      · rfl
    · have hname := merge_field_field_name strat pn
        (doc.get_custom_field_value pn)
        (pyOrStr f.normalized_value f.raw_value) f.confidence
      refine ⟨?_, ?_, ?_, ?_, hrev _⟩ <;>
        simp only [MergeStrategy.merge_document, hl, List.filterMap_cons,
          entryResult, Option.map_some, ih1, ih2, ih3, ih4] <;>
        rcases hdec : (strat.merge_field pn (doc.get_custom_field_value pn)
          (pyOrStr f.normalized_value f.raw_value) f.confidence).decision <;>
        simp_all [List.filter_cons, hname]

/-! ## Claim C9 — `normalize_text` truncation -/

/-- C9 counterexample: with `max_length = 1` the slice `clean[:1-3]` is the
negative slice `clean[:-2]`, so `normalize_text("abcd", 1)` returns
`"ab..."`, a string of length 5 > 1. -/
theorem normalize_text_short_limit_counterexample :
    normalize_text (some "abcd") (some 1) = some "ab..."
      ∧ ¬ ((("ab..." : String).data.length : Int) ≤ 1) := by
  constructor
  · decide
  · decide

/-- C9 (amended): for every input and every provided `max_length ≥ 3`,
`normalize_text` returns null or a string of length at most `max_length`
(over-long text is truncated with a 3-character ellipsis counted within
the limit). -/
theorem normalize_text_respects_max_length (v : Option String) (ml : Int)
    (s : String) (h3 : 3 ≤ ml)
    (h : normalize_text v (some ml) = some s) :
    (s.data.length : Int) ≤ ml := by
  rcases v with _ | t
  · simp [normalize_text] at h
  · simp only [normalize_text] at h
    by_cases he : (collapseWs t).data.isEmpty = true
    · rw [if_pos he] at h
      exact absurd h (by simp)
    · rw [if_neg he] at h
      by_cases hc : ml ≠ 0 ∧ ml < ((collapseWs t).data.length : Int)
      · rw [if_pos hc] at h
        obtain ⟨hml, hlen⟩ := hc
        obtain rfl : pySliceTo (collapseWs t) (ml - 3) ++ "..." = s :=
          Option.some.inj h
        have hsl : (pySliceTo (collapseWs t) (ml - 3)).data.length
            = min (ml - 3).toNat (collapseWs t).data.length := by
          unfold pySliceTo
          rw [if_pos (by omega : (0:Int) ≤ ml - 3)]
          simp
        have happ : (pySliceTo (collapseWs t) (ml - 3) ++ ("..." : String)).data
            = (pySliceTo (collapseWs t) (ml - 3)).data ++ "...".data := rfl
        have h3len : ("..." : String).data.length = 3 := rfl
        rw [happ, List.length_append, h3len, hsl]
        omega
      · rw [if_neg hc] at h
        obtain rfl : collapseWs t = s := Option.some.inj h
        omega

theorem normalize_text_respects_max_length_witness :
    ((("hello..." : String).data.length : Int)) ≤ 8 :=
  normalize_text_respects_max_length (some "hello   world") 8 "hello..."
    (by decide) (by decide)

/-! ## Claim C10 — `merge_document` ignores the overall confidence -/

/-- C10: `merge_document` produces the same result for any two
`ConfidenceScore` arguments — only the per-field confidences inside the
extraction influence the decisions. -/
theorem merge_document_ignores_confidence (strat : MergeStrategy)
    (doc : Document) (ext : ExtractionResult)
    (mapping : List (String × String)) (c1 c2 : ConfidenceScore) :
    strat.merge_document doc ext mapping c1
      = strat.merge_document doc ext mapping c2 := by
  induction mapping with
  | nil => rfl
  | cons p rest ih =>
    obtain ⟨en, pn⟩ := p
    simp only [MergeStrategy.merge_document, ih]

end PaperSqueeze
